import Mathlib

/-!
Formal model of the echopixel DICOM generators
(`generate_echo_dicom.py`, `generate_echo_dicom_v2.py`,
`generate_echo_dicom_jpeg.py`, `generate_echo_dicom_realistic.py`).

Python floats are modelled by exact rationals or reals; Python `int(x)`
(truncation toward zero) is `pyint`; byte strings are lists of naturals
below 256; numpy's seeded global random state is an explicit state
parameter threaded through the randomized generators.
-/

/-- Python `int(x)`: truncation toward zero.  For `0 ≤ x` this is `⌊x⌋`. -/
def pyint {α : Type} [LinearOrderedField α] [FloorRing α] (x : α) : ℤ :=
  if 0 ≤ x then ⌊x⌋ else -⌊-x⌋

/-! ## Encapsulated pixel stream

The repository builds the encapsulated stream with `pydicom.encaps.encapsulate`
(`generate_echo_dicom_jpeg.py` line 358, `generate_echo_dicom_realistic.py`
line 885), whose code is not among the repository's files; the layout below is
modelled from the spec's description of the encoder (Basic Offset Table item,
even-padded fragment items, zero-length sequence delimiter). -/

/-- Modelled from the spec: the 4-byte little-endian encoding used for item
lengths and offsets of the encapsulated pixel-data layout. -/
def u32le (n : ℕ) : List ℕ :=
  [n % 256, n / 256 % 256, n / 65536 % 256, n / 16777216 % 256]

/-- Modelled from the spec: the fragment item tag (FFFE,E000), little endian. -/
def itemTag : List ℕ := [254, 255, 0, 224]

/-- Modelled from the spec: the sequence delimiter tag (FFFE,E0DD), little
endian. -/
def delimTag : List ℕ := [254, 255, 221, 224]

/-- Modelled from the spec: a fragment of odd byte length gets one 0x00 pad
byte appended to make it even. -/
def padFragment (f : List ℕ) : List ℕ := if f.length % 2 = 1 then f ++ [0] else f

/-- Modelled from the spec: a fragment item is the item tag, the 4-byte
little-endian length of the (possibly padded) payload, then the payload. -/
def fragmentItem (f : List ℕ) : List ℕ :=
  itemTag ++ u32le (padFragment f).length ++ padFragment f

/-- Modelled from the spec: byte offsets of the fragment items relative to the
first one (the first offset is 0). -/
def fragmentOffsets : List (List ℕ) → ℕ → List ℕ
  | [], _ => []
  | f :: fs, off => off :: fragmentOffsets fs (off + 8 + (padFragment f).length)

/-- Modelled from the spec: the Basic Offset Table item carries one 4-byte
little-endian offset per fragment. -/
def basicOffsetTable (frames : List (List ℕ)) : List ℕ :=
  itemTag ++ u32le (4 * frames.length) ++ ((fragmentOffsets frames 0).map u32le).flatten

/-- Modelled from the spec: `EncapsulatedPixelEncoder.encapsulate` — the Basic
Offset Table item, the fragment items in input order, then a zero-length
sequence delimiter item. -/
def encapsulate (frames : List (List ℕ)) : List ℕ :=
  basicOffsetTable frames ++ ((frames.map fragmentItem).flatten ++ (delimTag ++ u32le 0))

/-- Reference decapsulation: read one 4-byte little-endian value. -/
def readU32 : List ℕ → Option (ℕ × List ℕ)
  | a :: b :: c :: d :: rest => some (a + 256 * b + 65536 * c + 16777216 * d, rest)
  | _ => none

/-- Reference decapsulation of the fragment stream: item after item until the
zero-length sequence delimiter, which must close the stream. -/
def decapFragments : ℕ → List ℕ → Option (List (List ℕ))
  | 0, _ => none
  | fuel + 1, s =>
    if s.take 4 = delimTag then
      match readU32 (s.drop 4) with
      | some (0, []) => some []
      | _ => none
    else if s.take 4 = itemTag then
      match readU32 (s.drop 4) with
      | some (len, rest) =>
        match decapFragments fuel (rest.drop len) with
        | some ps => some (rest.take len :: ps)
        | none => none
      | none => none
    else none

/-- Reference decapsulation: skip the Basic Offset Table item, then read the
fragment items. -/
def decapsulate (s : List ℕ) : Option (List (List ℕ)) :=
  if s.take 4 = itemTag then
    match readU32 (s.drop 4) with
    | some (botLen, rest) => decapFragments s.length (rest.drop botLen)
    | none => none
  else none

/-! ## Uncompressed pixel data (`create_dicom_dataset`) -/

/-- The Image Pixel module fields of `create_dicom_dataset` that the
pixel-data claims use (`generate_echo_dicom.py` lines 277-291,
`generate_echo_dicom_v2.py` lines 409-421). -/
structure DicomPixelModule where
  SamplesPerPixel : ℕ
  NumberOfFrames : ℕ
  Rows : ℕ
  Columns : ℕ
  PixelData : List ℕ

/-- `numpy.tobytes` of one 8-bit frame: its rows concatenated (row-major). -/
def frameBytes (frame : List (List ℕ)) : List ℕ := frame.flatten

/-- `create_dicom_dataset` (uncompressed path): the shape-derived Image Pixel
fields, `SamplesPerPixel = 1`, and `PixelData = pixel_data.tobytes()` — the
raw frame rasters concatenated in frame order with no padding. -/
def create_dicom_dataset (pixel_data : List (List (List ℕ))) : DicomPixelModule where
  SamplesPerPixel := 1
  NumberOfFrames := pixel_data.length
  Rows := pixel_data.headI.length
  Columns := pixel_data.headI.headI.length
  PixelData := (pixel_data.map frameBytes).flatten

/-! ## Command-line parameter handling (`main`) -/

/-- `main`'s quality handling (`generate_echo_dicom_jpeg.py` line 496,
`generate_echo_dicom_realistic.py` line 1008):
`quality = max(1, min(100, quality))`. -/
def clamp_quality (q : ℤ) : ℤ := max 1 (min 100 q)

/-- `main` then invokes the generator unconditionally: no parameter value is
ever rejected, and generation runs with the clamped quality.  (Width, height
and sector angle are hard-coded constants, never validated.) -/
def main_run (q : ℤ) : Except String ℤ := Except.ok (clamp_quality q)

/-! ## Cardiac anatomy (`generate_echo_dicom_realistic.py` lines 42-162)

Python floats are modelled exactly over an ordered field; the systole factor
is left generic in the field so the same definitions serve the rational
(decidable) instances and the real-valued compositing pipeline. -/

/-- `CardiacAnatomy.__init__` (width and height of the raster). -/
structure CardiacAnatomy where
  width : ℕ
  height : ℕ

/-- `self.cx = width // 2`. -/
def CardiacAnatomy.cx (a : CardiacAnatomy) : ℤ := (a.width / 2 : ℕ)

/-- `self.apex_y = int(height * 0.08)`. -/
def CardiacAnatomy.apex_y (a : CardiacAnatomy) : ℤ := pyint ((a.height : ℚ) * 0.08)

/-- `self.base_y = int(height * 0.82)`. -/
def CardiacAnatomy.base_y (a : CardiacAnatomy) : ℤ := pyint ((a.height : ℚ) * 0.82)

/-- `self.mid_y = int(height * 0.48)`. -/
def CardiacAnatomy.mid_y (a : CardiacAnatomy) : ℤ := pyint ((a.height : ℚ) * 0.48)

/-- The dict returned by `get_lv_contour` / `get_rv_contour`. -/
structure ChamberContour where
  center : ℤ × ℤ
  outer : ℤ × ℤ
  inner : ℤ × ℤ
  apex_y : ℤ
  wall_thickness : ℤ

/-- The dict returned by `get_la_contour` / `get_ra_contour`. -/
structure AtriumContour where
  center : ℤ × ℤ
  radius : ℤ × ℤ
  wall_thickness : ℤ

/-- The dict returned by `get_mitral_valve` / `get_tricuspid_valve`. -/
structure ValveState where
  position : ℤ × ℤ
  opening : ℤ
  leaflet_length : ℤ

section Anatomy

variable {α : Type} [LinearOrderedField α] [FloorRing α]

/-- `get_lv_contour` (realistic lines 67-89). -/
def CardiacAnatomy.get_lv_contour (a : CardiacAnatomy) (systole_factor : α) : ChamberContour :=
  let contraction : α := 0.22 * systole_factor
  let outer_rx := pyint ((a.width : α) * 0.14 * (1 - contraction * 0.15))
  let outer_ry := pyint ((a.height : α) * 0.32 * (1 - contraction * 0.1))
  let inner_rx := pyint ((a.width : α) * 0.10 * (1 - contraction * 0.4))
  let inner_ry := pyint ((a.height : α) * 0.26 * (1 - contraction * 0.35))
  let cx := a.cx - pyint ((a.width : α) * 0.08)
  let cy := pyint ((a.height : α) * 0.30)
  { center := (cx, cy)
    outer := (outer_rx, outer_ry)
    inner := (inner_rx, inner_ry)
    apex_y := a.apex_y + 15
    wall_thickness := outer_rx - inner_rx }

/-- `get_rv_contour` (realistic lines 91-109). -/
def CardiacAnatomy.get_rv_contour (a : CardiacAnatomy) (systole_factor : α) : ChamberContour :=
  let contraction : α := 0.15 * systole_factor
  let outer_rx := pyint ((a.width : α) * 0.11 * (1 - contraction * 0.15))
  let outer_ry := pyint ((a.height : α) * 0.28 * (1 - contraction * 0.1))
  let inner_rx := pyint ((a.width : α) * 0.08 * (1 - contraction * 0.35))
  let inner_ry := pyint ((a.height : α) * 0.23 * (1 - contraction * 0.3))
  let cx := a.cx + pyint ((a.width : α) * 0.12)
  let cy := pyint ((a.height : α) * 0.28)
  { center := (cx, cy)
    outer := (outer_rx, outer_ry)
    inner := (inner_rx, inner_ry)
    apex_y := a.apex_y + 25
    wall_thickness := outer_rx - inner_rx }

/-- `get_la_contour` (realistic lines 111-125). -/
def CardiacAnatomy.get_la_contour (a : CardiacAnatomy) (systole_factor : α) : AtriumContour :=
  let expansion : α := 0.12 * systole_factor
  let rx := pyint ((a.width : α) * 0.12 * (1 + expansion))
  let ry := pyint ((a.height : α) * 0.12 * (1 + expansion))
  let cx := a.cx - pyint ((a.width : α) * 0.10)
  let cy := pyint ((a.height : α) * 0.65)
  { center := (cx, cy)
    radius := (rx, ry)
    wall_thickness := pyint ((a.width : α) * 0.015) }

/-- `get_ra_contour` (realistic lines 127-141). -/
def CardiacAnatomy.get_ra_contour (a : CardiacAnatomy) (systole_factor : α) : AtriumContour :=
  let expansion : α := 0.10 * systole_factor
  let rx := pyint ((a.width : α) * 0.10 * (1 + expansion))
  let ry := pyint ((a.height : α) * 0.11 * (1 + expansion))
  let cx := a.cx + pyint ((a.width : α) * 0.12)
  let cy := pyint ((a.height : α) * 0.63)
  { center := (cx, cy)
    radius := (rx, ry)
    wall_thickness := pyint ((a.width : α) * 0.012) }

/-- `get_mitral_valve` (realistic lines 143-152): opens in diastole,
`opening = int(30 * (1 - systole_factor))`. -/
def CardiacAnatomy.get_mitral_valve (a : CardiacAnatomy) (systole_factor : α) : ValveState where
  position := (a.cx - pyint ((a.width : α) * 0.08), a.mid_y)
  opening := pyint (30 * (1 - systole_factor))
  leaflet_length := 35

/-- `get_tricuspid_valve` (realistic lines 154-162):
`opening = int(25 * (1 - systole_factor))`. -/
def CardiacAnatomy.get_tricuspid_valve (a : CardiacAnatomy) (systole_factor : α) : ValveState where
  position := (a.cx + pyint ((a.width : α) * 0.10), a.mid_y - 5)
  opening := pyint (25 * (1 - systole_factor))
  leaflet_length := 30

/-! ### `generate_4chamber_frame` chamber sizing
(`generate_echo_dicom_v2.py` lines 121-243, identical in
`generate_echo_dicom_jpeg.py` lines 72-209) -/

/-- LV radii of `generate_4chamber_frame` (v2 lines 126-130):
(outer_rx, outer_ry, inner_rx, inner_ry). -/
def lv_radii_v2 (systole_factor : α) : ℤ × ℤ × ℤ × ℤ :=
  let lv_contraction : α := 0.18 * systole_factor
  (pyint (75 * (1 - lv_contraction * 0.3)), pyint (140 * (1 - lv_contraction * 0.2)),
   pyint (55 * (1 - lv_contraction)), pyint (115 * (1 - lv_contraction * 0.8)))

/-- RV radii of `generate_4chamber_frame` (v2 lines 146-150). -/
def rv_radii_v2 (systole_factor : α) : ℤ × ℤ × ℤ × ℤ :=
  let rv_contraction : α := 0.12 * systole_factor
  (pyint (65 * (1 - rv_contraction * 0.3)), pyint (120 * (1 - rv_contraction * 0.2)),
   pyint (50 * (1 - rv_contraction)), pyint (100 * (1 - rv_contraction * 0.7)))

/-- LA radii of `generate_4chamber_frame` (v2 lines 175-177). -/
def la_radii_v2 (systole_factor : α) : ℤ × ℤ :=
  let la_expansion : α := 0.08 * systole_factor
  (pyint (70 * (1 + la_expansion)), pyint (55 * (1 + la_expansion)))

/-- RA radii of `generate_4chamber_frame` (v2 lines 192-194). -/
def ra_radii_v2 (systole_factor : α) : ℤ × ℤ :=
  let ra_expansion : α := 0.06 * systole_factor
  (pyint (60 * (1 + ra_expansion)), pyint (50 * (1 + ra_expansion)))

/-- Mitral opening of `generate_4chamber_frame` (v2 line 217). -/
def mv_opening_v2 (systole_factor : α) : ℤ := pyint (25 * (1 - systole_factor))

/-- Tricuspid opening of `generate_4chamber_frame` (v2 line 237). -/
def tv_opening_v2 (systole_factor : α) : ℤ := pyint (20 * (1 - systole_factor))

end Anatomy

/-! ## Cycle phase (`generate_echo_dicom_v2.py` lines 105-112,
`generate_echo_dicom_realistic.py` lines 575-578) -/

/-- `cycle = frame / total_frames; phase = 2 * np.pi * cycle;
systole_factor = (np.sin(phase) + 1) / 2`. -/
noncomputable def systole_factor (frame total : ℕ) : ℝ :=
  let cycle : ℝ := (frame : ℝ) / (total : ℝ)
  let phase : ℝ := 2 * Real.pi * cycle
  (Real.sin phase + 1) / 2

/-! ## Time Gain Compensation (`generate_echo_dicom_realistic.py` lines
306-316; `generate_echo_dicom_v2.py` lines 257-264) -/

/-- `apply_tgc`'s gain curve (realistic line 314):
`0.7 + 0.6 * distance_map + 0.1 * np.sin(distance_map * np.pi)`. -/
noncomputable def tgc_curve (d : ℝ) : ℝ :=
  0.7 + 0.6 * d + 0.1 * Real.sin (d * Real.pi)

/-- `apply_tgc` (realistic lines 306-316): `image * tgc_curve`. -/
noncomputable def apply_tgc (image distance_map : ℤ → ℤ → ℝ) : ℤ → ℤ → ℝ :=
  fun x y => image x y * tgc_curve (distance_map x y)

/-- v2's TGC gain (v2 line 263, jpeg line 217): `0.7 + 0.5 * y_coords` with
`y_coords = y / height` the normalized depth. -/
noncomputable def tgc_curve_v2 (ynorm : ℝ) : ℝ := 0.7 + 0.5 * ynorm

/-! ## Color Doppler flow (`generate_echo_dicom_realistic.py` lines 344-414)

The per-pixel sensor noise `np.random.normal(0, 0.05, flow_rgb.shape)` is an
explicit input field.  Pixels are the integer `ogrid` coordinates. -/

open scoped Classical

/-- `np.clip(v, lo, hi)`. -/
noncomputable def npclip (v lo hi : ℝ) : ℝ := max lo (min v hi)

/-- `e_wave = np.sin(frame_phase * 2 * np.pi) * 0.5 + 0.5` (realistic line 379). -/
noncomputable def e_wave (frame_phase : ℝ) : ℝ :=
  Real.sin (frame_phase * 2 * Real.pi) * 0.5 + 0.5

/-- `np.sqrt((x - px)**2 + (y - py)**2)` on the integer pixel grid. -/
noncomputable def pixel_dist (px py x y : ℤ) : ℝ :=
  Real.sqrt (((x - px) ^ 2 + (y - py) ^ 2 : ℤ) : ℝ)

/-- Mitral inflow region `mv_mask` (realistic lines 384-385). -/
def mv_mask (w h : ℕ) (sf : ℝ) (x y : ℤ) : Prop :=
  let mv := (CardiacAnatomy.mk w h).get_mitral_valve sf
  pixel_dist mv.position.1 mv.position.2 x y < 50 ∧
    y > mv.position.2 - 30 ∧ y < mv.position.2 + 60

/-- Fast-inflow aliasing region `fast_flow` (realistic line 390). -/
def fast_flow_mask (w h : ℕ) (sf : ℝ) (x y : ℤ) : Prop :=
  mv_mask w h sf x y ∧
    pixel_dist ((CardiacAnatomy.mk w h).get_mitral_valve sf).position.1
      ((CardiacAnatomy.mk w h).get_mitral_valve sf).position.2 x y < 20

/-- Tricuspid inflow region `tv_mask` (realistic lines 399-400). -/
def tv_mask (w h : ℕ) (sf : ℝ) (x y : ℤ) : Prop :=
  let tv := (CardiacAnatomy.mk w h).get_tricuspid_valve sf
  pixel_dist tv.position.1 tv.position.2 x y < 40 ∧
    y > tv.position.2 - 25 ∧ y < tv.position.2 + 50

/-- The masked numpy assignment `arr[mask, ch] = v` on an RGB field. -/
noncomputable def maskAssign (f : ℤ → ℤ → Fin 3 → ℝ) (m : ℤ → ℤ → Prop)
    (ch : Fin 3) (v : ℝ) : ℤ → ℤ → Fin 3 → ℝ :=
  fun x y c => if m x y ∧ c = ch then v else f x y c

/-- `flow_rgb` initialized to zeros (realistic line 364). -/
def zero_flow : ℤ → ℤ → Fin 3 → ℝ := fun _ _ _ => 0

/-- The deterministic flow overlay before sensor noise (realistic lines
364-405): blue mitral inflow (channel 2) with a red aliasing tint (channel 0)
near the orifice, then blue tricuspid inflow, each drawn only while
`diastole_factor = 1 - systole_factor` exceeds 0.3. -/
noncomputable def doppler_flow_base (w h : ℕ) (sf frame_phase : ℝ) :
    ℤ → ℤ → Fin 3 → ℝ :=
  let diastole_factor := 1 - sf
  let flow_intensity := diastole_factor * e_wave frame_phase
  let fmv := if diastole_factor > 0.3 then
      maskAssign
        (maskAssign zero_flow (mv_mask w h sf) 2 (npclip (flow_intensity * 0.9) 0 1))
        (fast_flow_mask w h sf) 0 (npclip (flow_intensity * 0.3) 0 1)
    else zero_flow
  if diastole_factor > 0.3 then
    maskAssign fmv (tv_mask w h sf) 2 (npclip (diastole_factor * 0.7) 0 1)
  else fmv

/-- `generate_color_doppler_flow` (realistic lines 344-414): the deterministic
flow plus the sensor-noise field, clipped to [0, 1] per channel. -/
noncomputable def generate_color_doppler_flow (w h : ℕ) (sf frame_phase : ℝ)
    (noise : ℤ → ℤ → Fin 3 → ℝ) : ℤ → ℤ → Fin 3 → ℝ :=
  fun x y c => npclip (doppler_flow_base w h sf frame_phase x y c + noise x y c) 0 1

/-! ## Speckle normalization (`generate_echo_dicom_realistic.py` lines
204-210; `generate_echo_dicom_jpeg.py` lines 58-69, `generate_echo_dicom_v2.py`
lines 47-60)

The Rayleigh layers are random draws from numpy; the deterministic final
stage is modelled on the flattened field. -/

/-- `arr.min()` of a flattened field (`[]` maps to 0). -/
def arrayMin : List ℚ → ℚ
  | [] => 0
  | x :: xs => xs.foldl min x

/-- `arr.max()` of a flattened field (`[]` maps to 0). -/
def arrayMax : List ℚ → ℚ
  | [] => 0
  | x :: xs => xs.foldl max x

/-- Final normalization of `generate_realistic_speckle` (realistic line 208):
`(speckle - speckle.min()) / (speckle.max() - speckle.min() + 1e-8)`. -/
def minmax_normalize (f : List ℚ) : List ℚ :=
  f.map (fun v => (v - arrayMin f) / (arrayMax f - arrayMin f + 1 / 100000000))

/-- Final scaling of `generate_speckle_noise` (jpeg line 68, v2 line 59):
`noise / noise.max() * intensity`. -/
def max_scale (intensity : ℚ) (f : List ℚ) : List ℚ :=
  f.map (fun v => v / arrayMax f * intensity)

/-! ## Seeded random-state threading (`generate_echo_dicom_realistic.py`
lines 169-210 and 558-643)

numpy's global random state is an abstract state type `σ`;
`np.random.seed(s)` resets it to a value determined by `s` alone, and each
drawing routine is a deterministic transition consuming the state.  The draw
bodies and the pure raster arithmetic are opaque parameters: the
reproducibility property holds for every deterministic instantiation. -/

/-- The random-state interface used by the realistic generator. -/
structure RNGModel (σ F : Type) where
  /-- `np.random.seed(s)` (realistic line 179). -/
  seedFn : ℕ → σ
  /-- the Rayleigh draws and filters of `generate_realistic_speckle`
  (realistic lines 182-208), a deterministic function of the state. -/
  speckleDraws : ℕ → ℕ → σ → F × σ
  /-- `np.random.normal(0, 0.05, flow_rgb.shape)` (realistic line 408). -/
  normalDraw : ℕ → ℕ → σ → F × σ

/-- The purely deterministic raster stages of `generate_realistic_frame`,
which consume no random state. -/
structure PureOps (F Img : Type) where
  /-- `draw_heart_structure` over the speckle background (lines 592-595). -/
  drawHeart : ℕ → ℕ → ℕ → ℕ → F → F
  /-- heart/speckle combination, TGC, lateral blur, sector mask and clip
  (lines 597-612). -/
  composeBody : ℕ → ℕ → ℕ → ℕ → F → F → F
  /-- Doppler overlay compositing and 8-bit quantization (lines 615-636). -/
  composeColor : ℕ → ℕ → ℕ → ℕ → F → F → Img
  /-- grayscale 8-bit conversion and RGB stacking (lines 638-641). -/
  composeGray : F → Img

/-- `generate_realistic_speckle` (realistic lines 169-210): reseeds the
global state when a seed is given, then draws. -/
def generate_realistic_speckle {σ F : Type} (R : RNGModel σ F) (w h : ℕ)
    (seed : Option ℕ) (g : σ) : F × σ :=
  match seed with
  | some s => R.speckleDraws w h (R.seedFn s)
  | none => R.speckleDraws w h g

/-- `generate_realistic_frame` (realistic lines 558-643): per-frame seed
`speckle_seed + frame`; heart-speckle seed `seed + 1000 if seed else None`
(Python truthiness, so seed value 0 falls back to `None`); the Doppler noise
draw consumes the state left by the speckle draws. -/
def generate_realistic_frame {σ F Img : Type} (R : RNGModel σ F)
    (P : PureOps F Img) (w h frame total : ℕ) (include_color_doppler : Bool)
    (speckle_seed : Option ℕ) (g : σ) : Img × σ :=
  let seed : Option ℕ := match speckle_seed with
    | some s => some (s + frame)
    | none => none
  let sp := generate_realistic_speckle R w h seed g
  let heart := P.drawHeart w h frame total sp.1
  let heartSeed : Option ℕ := match seed with
    | some s => if s = 0 then none else some (s + 1000)
    | none => none
  let hsp := generate_realistic_speckle R w h heartSeed sp.2
  let body := P.composeBody w h frame total heart hsp.1
  if include_color_doppler then
    let dn := R.normalDraw w h hsp.2
    (P.composeColor w h frame total body dn.1, dn.2)
  else
    (P.composeGray body, hsp.2)

/-! # Theorems -/

theorem u32le_length (n : ℕ) : (u32le n).length = 4 := rfl

theorem readU32_u32le (n : ℕ) (t : List ℕ) (h : n < 4294967296) :
    readU32 (u32le n ++ t) = some (n, t) := by
  have hn : n % 256 + 256 * (n / 256 % 256) + 65536 * (n / 65536 % 256) +
      16777216 * (n / 16777216 % 256) = n := by omega
  simp only [u32le, List.cons_append, List.nil_append, readU32, hn]

theorem padFragment_length_le (f : List ℕ) : (padFragment f).length ≤ f.length + 1 := by
  unfold padFragment
  split <;> simp

theorem fragmentOffsets_length (frames : List (List ℕ)) :
    ∀ off, (fragmentOffsets frames off).length = frames.length := by
  induction frames with
  | nil => intro off; rfl
  | cons f fs ih => intro off; simp [fragmentOffsets, ih]

theorem u32le_join_length (l : List ℕ) : ((l.map u32le).flatten).length = 4 * l.length := by
  induction l with
  | nil => rfl
  | cons x xs ih =>
    simp only [List.map_cons, List.flatten_cons, List.length_append, u32le_length, ih,
      List.length_cons]
    omega

theorem decapFragments_encapsulated (frames : List (List ℕ))
    (hlen : ∀ f ∈ frames, f.length + 1 < 4294967296) :
    ∀ fuel, frames.length < fuel →
      decapFragments fuel ((frames.map fragmentItem).flatten ++ (delimTag ++ u32le 0)) =
        some (frames.map padFragment) := by
  induction frames with
  | nil =>
    intro fuel hf
    cases fuel with
    | zero => omega
    | succ k => rfl
  | cons f fs ih =>
    intro fuel hf
    cases fuel with
    | zero => omega
    | succ k =>
      have hrw : ((f :: fs).map fragmentItem).flatten ++ (delimTag ++ u32le 0) =
          itemTag ++ (u32le (padFragment f).length ++
            (padFragment f ++ ((fs.map fragmentItem).flatten ++ (delimTag ++ u32le 0)))) := by
        simp [fragmentItem, List.append_assoc]
      have hL : (padFragment f).length < 4294967296 :=
        lt_of_le_of_lt (padFragment_length_le f) (hlen f (List.mem_cons_self f fs))
      rw [hrw]
      show decapFragments (k + 1) _ = _
      rw [decapFragments]
      rw [List.take_left' (by rfl)]
      rw [if_neg (by decide : ¬(itemTag = delimTag))]
      rw [if_pos rfl]
      rw [List.drop_left' (by rfl)]
      rw [readU32_u32le _ _ hL]
      dsimp only
      rw [List.drop_left' (by rfl), List.take_left' (by rfl)]
      rw [ih (fun g hg => hlen g (List.mem_cons_of_mem f hg)) k
        (by simp only [List.length_cons] at hf; omega)]
      simp

theorem encapsulate_length_lower (frames : List (List ℕ)) :
    frames.length < (encapsulate frames).length := by
  have h1 : (basicOffsetTable frames).length = 8 + 4 * frames.length := by
    rw [basicOffsetTable, List.length_append, List.length_append, u32le_length,
      u32le_join_length, fragmentOffsets_length]
    rfl
  simp only [encapsulate, List.length_append, h1]
  omega

/-- C1.  Encapsulating a list of byte payloads and decapsulating by the
documented layout recovers exactly the payloads, in order, each equal to its
input except for one trailing 0x00 pad byte when the input length is odd,
and the stream ends with the zero-length sequence delimiter item. -/
theorem encapsulate_roundtrip (frames : List (List ℕ))
    (hlen : ∀ f ∈ frames, f.length + 1 < 4294967296)
    (hcount : frames.length < 1000000000) :
    decapsulate (encapsulate frames) = some (frames.map padFragment) ∧
    (frames.map padFragment).length = frames.length ∧
    List.IsSuffix (delimTag ++ u32le 0) (encapsulate frames) := by
  refine ⟨?_, List.length_map _ _, ?_⟩
  · have hrw : encapsulate frames =
        itemTag ++ (u32le (4 * frames.length) ++
          (((fragmentOffsets frames 0).map u32le).flatten ++
            ((frames.map fragmentItem).flatten ++ (delimTag ++ u32le 0)))) := by
      simp [encapsulate, basicOffsetTable, List.append_assoc]
    rw [decapsulate, hrw]
    rw [List.take_left' (by rfl)]
    rw [if_pos rfl]
    rw [List.drop_left' (by rfl)]
    rw [readU32_u32le _ _ (by omega)]
    dsimp only
    rw [List.drop_left' (by rw [u32le_join_length, fragmentOffsets_length])]
    refine decapFragments_encapsulated frames hlen _ ?_
    rw [← hrw]
    exact encapsulate_length_lower frames
  · exact ⟨basicOffsetTable frames ++ (frames.map fragmentItem).flatten, by
      simp [encapsulate, List.append_assoc]⟩

theorem encapsulate_roundtrip_witness :
    (∀ f ∈ [[1, 2, 3], [4, 4]], List.length f + 1 < 4294967296) ∧
    ([[1, 2, 3], [4, 4]] : List (List ℕ)).length < 1000000000 ∧
    (decapsulate (encapsulate [[1, 2, 3], [4, 4]]) =
      some ([[1, 2, 3], [4, 4]].map padFragment) ∧
    ([[1, 2, 3], [4, 4]].map padFragment).length = ([[1, 2, 3], [4, 4]] : List (List ℕ)).length ∧
    List.IsSuffix (delimTag ++ u32le 0) (encapsulate [[1, 2, 3], [4, 4]])) :=
  ⟨by decide, by decide, encapsulate_roundtrip [[1, 2, 3], [4, 4]] (by decide) (by decide)⟩

theorem frameBytes_length_uniform (cols : ℕ) :
    ∀ frame : List (List ℕ), (∀ row ∈ frame, row.length = cols) →
      (frameBytes frame).length = frame.length * cols := by
  intro frame
  induction frame with
  | nil => intro _; simp [frameBytes]
  | cons r rs ih =>
    intro h
    simp only [frameBytes, List.flatten_cons, List.length_append, List.length_cons] at ih ⊢
    rw [h r (List.mem_cons_self r rs), ih (fun row hr => h row (List.mem_cons_of_mem r hr))]
    ring

theorem pixel_bytes_length (rows cols : ℕ) :
    ∀ pd : List (List (List ℕ)),
      (∀ fr ∈ pd, fr.length = rows ∧ ∀ row ∈ fr, row.length = cols) →
      ((pd.map frameBytes).flatten).length = pd.length * rows * cols := by
  intro pd
  induction pd with
  | nil => intro _; simp
  | cons fr frs ih =>
    intro h
    simp only [List.map_cons, List.flatten_cons, List.length_append, List.length_cons]
    obtain ⟨hfr, hrows⟩ := h fr (List.mem_cons_self fr frs)
    rw [frameBytes_length_uniform cols fr hrows, hfr,
      ih (fun g hg => h g (List.mem_cons_of_mem fr hg))]
    ring

/-- C2.  On the uncompressed path the pixel-data element is exactly the raw
raster bytes of all frames concatenated in frame order, row-major within each
frame, with no padding, and its byte length is
`NumberOfFrames * Rows * Columns * SamplesPerPixel` (with `SamplesPerPixel = 1`). -/
theorem pixel_data_explicit_length (pixel_data : List (List (List ℕ))) (rows cols : ℕ)
    (hne : pixel_data ≠ []) (hrpos : 0 < rows)
    (hshape : ∀ fr ∈ pixel_data, fr.length = rows ∧ ∀ row ∈ fr, row.length = cols) :
    (create_dicom_dataset pixel_data).PixelData = (pixel_data.map frameBytes).flatten ∧
    (create_dicom_dataset pixel_data).SamplesPerPixel = 1 ∧
    (create_dicom_dataset pixel_data).NumberOfFrames = pixel_data.length ∧
    (create_dicom_dataset pixel_data).Rows = rows ∧
    (create_dicom_dataset pixel_data).Columns = cols ∧
    (create_dicom_dataset pixel_data).PixelData.length =
      (create_dicom_dataset pixel_data).NumberOfFrames *
        (create_dicom_dataset pixel_data).Rows *
        (create_dicom_dataset pixel_data).Columns *
        (create_dicom_dataset pixel_data).SamplesPerPixel := by
  obtain ⟨fr0, frs, rfl⟩ : ∃ f l, pixel_data = f :: l := by
    cases pixel_data with
    | nil => exact absurd rfl hne
    | cons a l => exact ⟨a, l, rfl⟩
  obtain ⟨hfr0, hrow0⟩ := hshape fr0 (List.mem_cons_self fr0 frs)
  obtain ⟨r0, rrest, rfl⟩ : ∃ r l, fr0 = r :: l := by
    cases fr0 with
    | nil => simp at hfr0; omega
    | cons a l => exact ⟨a, l, rfl⟩
  have hRows : ((r0 :: rrest : List (List ℕ)) :: frs).headI.length = rows := hfr0
  have hCols : ((r0 :: rrest : List (List ℕ)) :: frs).headI.headI.length = cols :=
    hrow0 r0 (List.mem_cons_self r0 rrest)
  refine ⟨rfl, rfl, rfl, hRows, hCols, ?_⟩
  show ((((r0 :: rrest) :: frs).map frameBytes).flatten).length = _
  rw [pixel_bytes_length rows cols _ hshape]
  show _ = ((r0 :: rrest) :: frs).length * ((r0 :: rrest) :: frs).headI.length *
    ((r0 :: rrest) :: frs).headI.headI.length * 1
  rw [hRows, hCols]
  ring

theorem pixel_data_explicit_length_witness :
    (([[[7, 8], [9, 10]]] : List (List (List ℕ))) ≠ [] ∧ 0 < 2 ∧
      (∀ fr ∈ ([[[7, 8], [9, 10]]] : List (List (List ℕ))),
        fr.length = 2 ∧ ∀ row ∈ fr, row.length = 2)) ∧
    (create_dicom_dataset [[[7, 8], [9, 10]]]).PixelData.length =
      (create_dicom_dataset [[[7, 8], [9, 10]]]).NumberOfFrames *
        (create_dicom_dataset [[[7, 8], [9, 10]]]).Rows *
        (create_dicom_dataset [[[7, 8], [9, 10]]]).Columns *
        (create_dicom_dataset [[[7, 8], [9, 10]]]).SamplesPerPixel :=
  ⟨⟨by decide, by decide, by decide⟩,
    (pixel_data_explicit_length [[[7, 8], [9, 10]]] 2 2 (by decide) (by decide)
      (by decide)).2.2.2.2.2⟩

/-- C4 counterexample: quality 150 lies outside 1..100, yet `main` does not
reject it — it proceeds into generation with the silently clamped value 100. -/
theorem main_quality_no_reject_cex :
    main_run 150 = Except.ok 100 ∧ ¬((150 : ℤ) ≤ 100) :=
  ⟨congrArg Except.ok (by decide : clamp_quality 150 = 100), by decide⟩

/-- C4 (amended).  `main` never rejects a parameter: the quality argument is
silently clamped to `[1, 100]` by `max(1, min(100, quality))` before
generation begins, and generation always starts; width, height and sector
angle are hard-coded constants that are never validated. -/
theorem main_quality_clamped (q : ℤ) :
    main_run q = Except.ok (clamp_quality q) ∧
    1 ≤ clamp_quality q ∧ clamp_quality q ≤ 100 :=
  ⟨rfl, le_max_left 1 _, max_le (by norm_num) (min_le_left _ _)⟩

theorem pyint_mono {α : Type} [LinearOrderedField α] [FloorRing α] {x y : α}
    (h : x ≤ y) : pyint x ≤ pyint y := by
  unfold pyint
  split <;> split
  case isTrue.isTrue => exact Int.floor_le_floor h
  case isTrue.isFalse hx hy => exact absurd (le_trans hx h) hy
  case isFalse.isTrue hx hy =>
    have h1 : 0 ≤ ⌊y⌋ := Int.floor_nonneg.mpr hy
    have h2 : 0 ≤ ⌊-x⌋ := Int.floor_nonneg.mpr (by push_neg at hx; linarith)
    omega
  case isFalse.isFalse => exact neg_le_neg (Int.floor_le_floor (by linarith))

/-- C7.  For `s1 ≤ s2` in `[0, 1]`, in both anatomy models every ventricular
outer and inner radius at `s2` is at most its value at `s1`, every atrial
radius at `s2` is at least its value at `s1`, and both valve openings at `s2`
are at most their values at `s1`: ventricles shrink, atria expand and valves
close as the systole factor grows. -/
theorem cardiac_antiphase (a : CardiacAnatomy) (s1 s2 : ℚ)
    (h0 : 0 ≤ s1) (h12 : s1 ≤ s2) (h1 : s2 ≤ 1) :
    ((a.get_lv_contour s2).outer.1 ≤ (a.get_lv_contour s1).outer.1 ∧
     (a.get_lv_contour s2).outer.2 ≤ (a.get_lv_contour s1).outer.2 ∧
     (a.get_lv_contour s2).inner.1 ≤ (a.get_lv_contour s1).inner.1 ∧
     (a.get_lv_contour s2).inner.2 ≤ (a.get_lv_contour s1).inner.2) ∧
    ((a.get_rv_contour s2).outer.1 ≤ (a.get_rv_contour s1).outer.1 ∧
     (a.get_rv_contour s2).outer.2 ≤ (a.get_rv_contour s1).outer.2 ∧
     (a.get_rv_contour s2).inner.1 ≤ (a.get_rv_contour s1).inner.1 ∧
     (a.get_rv_contour s2).inner.2 ≤ (a.get_rv_contour s1).inner.2) ∧
    ((a.get_la_contour s1).radius.1 ≤ (a.get_la_contour s2).radius.1 ∧
     (a.get_la_contour s1).radius.2 ≤ (a.get_la_contour s2).radius.2) ∧
    ((a.get_ra_contour s1).radius.1 ≤ (a.get_ra_contour s2).radius.1 ∧
     (a.get_ra_contour s1).radius.2 ≤ (a.get_ra_contour s2).radius.2) ∧
    ((a.get_mitral_valve s2).opening ≤ (a.get_mitral_valve s1).opening ∧
     (a.get_tricuspid_valve s2).opening ≤ (a.get_tricuspid_valve s1).opening) ∧
    ((lv_radii_v2 s2).1 ≤ (lv_radii_v2 s1).1 ∧
     (lv_radii_v2 s2).2.1 ≤ (lv_radii_v2 s1).2.1 ∧
     (lv_radii_v2 s2).2.2.1 ≤ (lv_radii_v2 s1).2.2.1 ∧
     (lv_radii_v2 s2).2.2.2 ≤ (lv_radii_v2 s1).2.2.2) ∧
    ((rv_radii_v2 s2).1 ≤ (rv_radii_v2 s1).1 ∧
     (rv_radii_v2 s2).2.1 ≤ (rv_radii_v2 s1).2.1 ∧
     (rv_radii_v2 s2).2.2.1 ≤ (rv_radii_v2 s1).2.2.1 ∧
     (rv_radii_v2 s2).2.2.2 ≤ (rv_radii_v2 s1).2.2.2) ∧
    ((la_radii_v2 s1).1 ≤ (la_radii_v2 s2).1 ∧
     (la_radii_v2 s1).2 ≤ (la_radii_v2 s2).2) ∧
    ((ra_radii_v2 s1).1 ≤ (ra_radii_v2 s2).1 ∧
     (ra_radii_v2 s1).2 ≤ (ra_radii_v2 s2).2) ∧
    (mv_opening_v2 s2 ≤ mv_opening_v2 s1 ∧
     tv_opening_v2 s2 ≤ tv_opening_v2 s1) := by
  have hwms : (0 : ℚ) ≤ (a.width : ℚ) * (s2 - s1) :=
    mul_nonneg (Nat.cast_nonneg _) (sub_nonneg.mpr h12)
  have hhms : (0 : ℚ) ≤ (a.height : ℚ) * (s2 - s1) :=
    mul_nonneg (Nat.cast_nonneg _) (sub_nonneg.mpr h12)
  refine ⟨⟨?_, ?_, ?_, ?_⟩, ⟨?_, ?_, ?_, ?_⟩, ⟨?_, ?_⟩, ⟨?_, ?_⟩, ⟨?_, ?_⟩,
    ⟨?_, ?_, ?_, ?_⟩, ⟨?_, ?_, ?_, ?_⟩, ⟨?_, ?_⟩, ⟨?_, ?_⟩, ⟨?_, ?_⟩⟩ <;>
    simp only [CardiacAnatomy.get_lv_contour, CardiacAnatomy.get_rv_contour,
      CardiacAnatomy.get_la_contour, CardiacAnatomy.get_ra_contour,
      CardiacAnatomy.get_mitral_valve, CardiacAnatomy.get_tricuspid_valve,
      lv_radii_v2, rv_radii_v2, la_radii_v2, ra_radii_v2,
      mv_opening_v2, tv_opening_v2] <;>
    exact pyint_mono (by nlinarith [hwms, hhms])

theorem cardiac_antiphase_witness :
    ((0 : ℚ) ≤ 0 ∧ (0 : ℚ) ≤ 1 ∧ (1 : ℚ) ≤ 1) ∧
    ((CardiacAnatomy.mk 640 480).get_lv_contour (1 : ℚ)).outer.1 ≤
      ((CardiacAnatomy.mk 640 480).get_lv_contour (0 : ℚ)).outer.1 :=
  ⟨⟨le_refl 0, by norm_num, le_refl 1⟩,
   (cardiac_antiphase ⟨640, 480⟩ 0 1 (le_refl 0) (by norm_num) (le_refl 1)).1.1⟩

theorem npclip01_mem (v : ℝ) : 0 ≤ npclip v 0 1 ∧ npclip v 0 1 ≤ 1 :=
  ⟨le_max_left 0 _, max_le zero_le_one (min_le_right v 1)⟩

/-- C5 (amended).  For every pixel and channel the returned overlay value lies
in [0, 1] — the clip after the noise addition bounds in-region active pixels
too — and the deterministic flow component (before sensor noise) is zero at
every pixel outside the valve-adjacent regions and zero everywhere whenever
the diastole factor `1 - systole_factor` does not exceed the 0.3 activation
threshold. -/
theorem doppler_flow_bounds (w h : ℕ) (sf frame_phase : ℝ)
    (noise : ℤ → ℤ → Fin 3 → ℝ) (x y : ℤ) (c : Fin 3) :
    (0 ≤ generate_color_doppler_flow w h sf frame_phase noise x y c ∧
      generate_color_doppler_flow w h sf frame_phase noise x y c ≤ 1) ∧
    (((¬ mv_mask w h sf x y ∧ ¬ tv_mask w h sf x y) ∨ 1 - sf ≤ 0.3) →
      doppler_flow_base w h sf frame_phase x y c = 0) := by
  refine ⟨⟨(npclip01_mem _).1, (npclip01_mem _).2⟩, fun hzero => ?_⟩
  rcases hzero with ⟨hmv, htv⟩ | hd
  · by_cases hdia : (1 : ℝ) - sf > 0.3
    · have hfast : ¬ fast_flow_mask w h sf x y := fun hfa => hmv hfa.1
      simp only [doppler_flow_base, if_pos hdia, maskAssign]
      rw [if_neg (fun hh => htv hh.1), if_neg (fun hh => hfast hh.1),
        if_neg (fun hh => hmv hh.1)]
      rfl
    · simp only [doppler_flow_base, if_neg hdia]
      rfl
  · have hdia : ¬ ((1 : ℝ) - sf > 0.3) := not_lt.mpr hd
    simp only [doppler_flow_base, if_neg hdia]
    rfl

theorem doppler_flow_bounds_witness :
    ((1 : ℝ) - 1 ≤ 0.3) ∧
    (0 ≤ generate_color_doppler_flow 640 480 1 0 (fun _ _ _ => 0) 0 0 0 ∧
      generate_color_doppler_flow 640 480 1 0 (fun _ _ _ => 0) 0 0 0 ≤ 1) ∧
    doppler_flow_base 640 480 1 0 0 0 0 = 0 :=
  ⟨by norm_num,
   (doppler_flow_bounds 640 480 1 0 (fun _ _ _ => 0) 0 0 0).1,
   (doppler_flow_bounds 640 480 1 0 (fun _ _ _ => 0) 0 0 0).2 (Or.inr (by norm_num))⟩

/-- C5 counterexample: with `systole_factor = 1` the diastole factor is 0 —
not above the activation threshold — yet for the constant sensor-noise draw
1/2 the returned overlay value at pixel (0, 0), channel 2 is 1/2, not zero,
and (0, 0) lies in no valve-adjacent region. -/
theorem doppler_flow_noise_cex :
    generate_color_doppler_flow 640 480 1 0 (fun _ _ _ => 1 / 2) 0 0 2 = 1 / 2 ∧
    ¬ ((1 : ℝ) - 1 > 0.3) := by
  have hdia : ¬ ((1 : ℝ) - 1 > 0.3) := by norm_num
  refine ⟨?_, hdia⟩
  simp only [generate_color_doppler_flow, doppler_flow_base, if_neg hdia, zero_flow, npclip]
  rw [zero_add, min_eq_left (by norm_num), max_eq_right (by norm_num)]

theorem sin_diff_bound (a b : ℝ) : |Real.sin a - Real.sin b| ≤ |a - b| := by
  rw [Real.sin_sub_sin, abs_mul, abs_mul, abs_two]
  have h1 : |Real.sin ((a - b) / 2)| ≤ |(a - b) / 2| := Real.abs_sin_le_abs
  have h4 : |(a - b) / 2| = |a - b| / 2 := by rw [abs_div, abs_two]
  rw [h4] at h1
  have h2 : |Real.cos ((a + b) / 2)| ≤ 1 := Real.abs_cos_le_one _
  have h5 : 0 ≤ |Real.sin ((a - b) / 2)| := abs_nonneg _
  have h6 : 0 ≤ |Real.cos ((a + b) / 2)| := abs_nonneg _
  have h7 : 0 ≤ |a - b| := abs_nonneg _
  nlinarith

theorem tgc_strict_aux : StrictMonoOn tgc_curve (Set.Icc (0 : ℝ) 1) := by
  intro a _ b _ hab
  simp only [tgc_curve]
  have habs := sin_diff_bound (a * Real.pi) (b * Real.pi)
  have h2 : |a * Real.pi - b * Real.pi| = (b - a) * Real.pi := by
    rw [abs_of_nonpos (by nlinarith [Real.pi_pos])]
    ring
  rw [h2] at habs
  have hs : Real.sin (a * Real.pi) - Real.sin (b * Real.pi) ≤ (b - a) * Real.pi :=
    (abs_le.mp habs).2
  have hm : (b - a) * Real.pi ≤ (b - a) * 3.15 :=
    mul_le_mul_of_nonneg_left Real.pi_lt_d2.le (by linarith)
  linarith

/-- C6 (amended).  `apply_tgc` multiplies the image by the depth gain
`0.7 + 0.6 d + 0.1 sin(π d)`, which does suppress the near field
(`tgc_curve 0 = 0.7 < 1`), boost the far field (`tgc_curve 1 = 1.3 > 1`) and
carry a sinusoidal oscillation term — but it is strictly monotonically
increasing on [0, 1], as is v2's linear gain `0.7 + 0.5 d`. -/
theorem tgc_curve_shape (image distance_map : ℤ → ℤ → ℝ) (x y : ℤ) :
    apply_tgc image distance_map x y = image x y * tgc_curve (distance_map x y) ∧
    StrictMonoOn tgc_curve (Set.Icc (0 : ℝ) 1) ∧
    tgc_curve 0 < 1 ∧ 1 < tgc_curve 1 ∧
    StrictMono tgc_curve_v2 := by
  refine ⟨rfl, tgc_strict_aux, ?_, ?_, ?_⟩
  · simp only [tgc_curve, zero_mul, Real.sin_zero]
    norm_num
  · simp only [tgc_curve, one_mul, Real.sin_pi]
    norm_num
  · intro a b hab
    simp only [tgc_curve_v2]
    linarith

/-- C6 counterexample: the negation of the claim — the realistic TGC gain
curve IS monotonically increasing on the whole normalized depth range [0, 1]. -/
theorem tgc_curve_monotone_cex : MonotoneOn tgc_curve (Set.Icc (0 : ℝ) 1) :=
  tgc_strict_aux.monotoneOn

/-- C8.  `systole_factor = (sin(2π frame/total) + 1)/2` lies in [0, 1] and is
periodic in the frame index with period `total`. -/
theorem systole_factor_range_periodic (frame total : ℕ) (htotal : 0 < total) :
    (0 ≤ systole_factor frame total ∧ systole_factor frame total ≤ 1) ∧
    systole_factor (frame + total) total = systole_factor frame total := by
  refine ⟨⟨?_, ?_⟩, ?_⟩
  · have := Real.neg_one_le_sin (2 * Real.pi * ((frame : ℝ) / (total : ℝ)))
    simp only [systole_factor]
    linarith
  · have := Real.sin_le_one (2 * Real.pi * ((frame : ℝ) / (total : ℝ)))
    simp only [systole_factor]
    linarith
  · have ht : (total : ℝ) ≠ 0 := Nat.cast_ne_zero.mpr htotal.ne'
    simp only [systole_factor]
    have harg : 2 * Real.pi * ((↑(frame + total) : ℝ) / (total : ℝ)) =
        2 * Real.pi * ((frame : ℝ) / (total : ℝ)) + 2 * Real.pi := by
      push_cast
      field_simp
      ring
    rw [harg, Real.sin_add_two_pi]

theorem systole_factor_range_periodic_witness :
    0 < 30 ∧ systole_factor (0 + 30) 30 = systole_factor 0 30 :=
  ⟨by decide, (systole_factor_range_periodic 0 30 (by decide)).2⟩

theorem foldl_min_le_init (xs : List ℚ) : ∀ a : ℚ, xs.foldl min a ≤ a := by
  induction xs with
  | nil => intro a; exact le_refl a
  | cons y ys ih => intro a; exact le_trans (ih (min a y)) (min_le_left a y)

theorem foldl_min_le_mem (xs : List ℚ) : ∀ a v : ℚ, v ∈ xs → xs.foldl min a ≤ v := by
  induction xs with
  | nil => intro a v hv; cases hv
  | cons y ys ih =>
    intro a v hv
    rcases List.mem_cons.mp hv with rfl | hv'
    · exact le_trans (foldl_min_le_init ys (min a v)) (min_le_right a v)
    · exact ih (min a y) v hv'

theorem init_le_foldl_max (xs : List ℚ) : ∀ a : ℚ, a ≤ xs.foldl max a := by
  induction xs with
  | nil => intro a; exact le_refl a
  | cons y ys ih => intro a; exact le_trans (le_max_left a y) (ih (max a y))

theorem mem_le_foldl_max (xs : List ℚ) : ∀ a v : ℚ, v ∈ xs → v ≤ xs.foldl max a := by
  induction xs with
  | nil => intro a v hv; cases hv
  | cons y ys ih =>
    intro a v hv
    rcases List.mem_cons.mp hv with rfl | hv'
    · exact le_trans (le_max_right a v) (init_le_foldl_max ys (max a v))
    · exact ih (max a y) v hv'

theorem arrayMin_le (f : List ℚ) (v : ℚ) (hv : v ∈ f) : arrayMin f ≤ v := by
  cases f with
  | nil => cases hv
  | cons x xs =>
    rcases List.mem_cons.mp hv with rfl | hv'
    · exact foldl_min_le_init xs v
    · exact foldl_min_le_mem xs x v hv'

theorem le_arrayMax (f : List ℚ) (v : ℚ) (hv : v ∈ f) : v ≤ arrayMax f := by
  cases f with
  | nil => cases hv
  | cons x xs =>
    rcases List.mem_cons.mp hv with rfl | hv'
    · exact init_le_foldl_max xs v
    · exact mem_le_foldl_max xs x v hv'

theorem foldl_min_mem_or (xs : List ℚ) : ∀ a : ℚ, xs.foldl min a = a ∨ xs.foldl min a ∈ xs := by
  induction xs with
  | nil => intro a; exact Or.inl rfl
  | cons y ys ih =>
    intro a
    rcases ih (min a y) with h | h
    · rcases min_choice a y with hm | hm
      · exact Or.inl (h.trans hm)
      · exact Or.inr (List.mem_cons.mpr (Or.inl (h.trans hm)))
    · exact Or.inr (List.mem_cons_of_mem y h)

theorem foldl_max_mem_or (xs : List ℚ) : ∀ a : ℚ, xs.foldl max a = a ∨ xs.foldl max a ∈ xs := by
  induction xs with
  | nil => intro a; exact Or.inl rfl
  | cons y ys ih =>
    intro a
    rcases ih (max a y) with h | h
    · rcases max_choice a y with hm | hm
      · exact Or.inl (h.trans hm)
      · exact Or.inr (List.mem_cons.mpr (Or.inl (h.trans hm)))
    · exact Or.inr (List.mem_cons_of_mem y h)

theorem arrayMin_mem (f : List ℚ) (hne : f ≠ []) : arrayMin f ∈ f := by
  cases f with
  | nil => exact absurd rfl hne
  | cons x xs =>
    show List.foldl min x xs ∈ x :: xs
    rcases foldl_min_mem_or xs x with h | h
    · rw [h]; exact List.mem_cons_self x xs
    · exact List.mem_cons_of_mem x h

theorem arrayMax_mem (f : List ℚ) (hne : f ≠ []) : arrayMax f ∈ f := by
  cases f with
  | nil => exact absurd rfl hne
  | cons x xs =>
    show List.foldl max x xs ∈ x :: xs
    rcases foldl_max_mem_or xs x with h | h
    · rw [h]; exact List.mem_cons_self x xs
    · exact List.mem_cons_of_mem x h

/-- C9 (amended).  The realistic generator's final step maps the field
minimum to 0 and every value into [0, 1), but — because of the `1e-8` in the
denominator — the maximum lands strictly below 1; the jpeg/v2 generator
instead scales the field so its maximum equals `intensity` (0.4 by default,
0.25 as called), with all values in [0, intensity]: neither output is
min-max normalized onto [0, 1] exactly. -/
theorem speckle_normalization_bounds (f g : List ℚ) (intensity : ℚ)
    (hf : f ≠ []) (hg0 : ∀ v ∈ g, 0 ≤ v) (hgmax : 0 < arrayMax g)
    (hi : 0 ≤ intensity) :
    (∀ v ∈ minmax_normalize f, 0 ≤ v ∧ v < 1) ∧
    (0 : ℚ) ∈ minmax_normalize f ∧
    (∀ v ∈ max_scale intensity g, 0 ≤ v ∧ v ≤ intensity) := by
  have hD : 0 < arrayMax f - arrayMin f + 1 / 100000000 := by
    have hmem := arrayMin_mem f hf
    have := le_arrayMax f (arrayMin f) hmem
    linarith
  refine ⟨?_, ?_, ?_⟩
  · intro v hv
    obtain ⟨u, hu, rfl⟩ := List.mem_map.mp hv
    have hm : arrayMin f ≤ u := arrayMin_le f u hu
    have hM : u ≤ arrayMax f := le_arrayMax f u hu
    constructor
    · exact div_nonneg (by linarith) hD.le
    · exact (div_lt_one hD).mpr (by linarith)
  · exact List.mem_map.mpr ⟨arrayMin f, arrayMin_mem f hf, by rw [sub_self, zero_div]⟩
  · intro v hv
    obtain ⟨u, hu, rfl⟩ := List.mem_map.mp hv
    have h0 : 0 ≤ u / arrayMax g := div_nonneg (hg0 u hu) hgmax.le
    have h1 : u / arrayMax g ≤ 1 := (div_le_one hgmax).mpr (le_arrayMax g u hu)
    exact ⟨mul_nonneg h0 hi, mul_le_of_le_one_left hi h1⟩

theorem speckle_normalization_bounds_witness :
    (([0, 1] : List ℚ) ≠ [] ∧ (∀ v ∈ ([1] : List ℚ), (0 : ℚ) ≤ v) ∧
      (0 : ℚ) < arrayMax [1] ∧ (0 : ℚ) ≤ 2) ∧
    (0 : ℚ) ∈ minmax_normalize [0, 1] :=
  ⟨⟨by simp, by simp, by norm_num [arrayMax, List.foldl], by norm_num⟩,
   (speckle_normalization_bounds [0, 1] [1] 2 (by simp) (by simp)
     (by norm_num [arrayMax, List.foldl]) (by norm_num)).2.1⟩

/-- C9 counterexample: the pre-normalization field [0, 1] normalizes to
[0, 10^8/(10^8 + 1)], whose maximum is strictly below 1; and the jpeg-variant
scaling of [1, 2] at intensity 2 has minimum 1 ≠ 0 and maximum 2 ≠ 1 —
neither returned field attains min 0 and max 1 as claimed. -/
theorem speckle_normalization_cex :
    arrayMax (minmax_normalize [0, 1]) ≠ 1 ∧
    arrayMin (max_scale 2 [1, 2]) ≠ 0 ∧
    arrayMax (max_scale 2 [1, 2]) ≠ 1 := by
  have hmin : arrayMin [(0 : ℚ), 1] = 0 := by
    show min (0 : ℚ) 1 = 0
    exact min_eq_left (by norm_num)
  have hmax : arrayMax [(0 : ℚ), 1] = 1 := by
    show max (0 : ℚ) 1 = 1
    exact max_eq_right (by norm_num)
  have h1 : minmax_normalize [0, 1] = [0, 100000000 / 100000001] := by
    simp only [minmax_normalize, List.map_cons, List.map_nil, hmin, hmax]
    norm_num
  have hmax2 : arrayMax [(1 : ℚ), 2] = 2 := by
    show max (1 : ℚ) 2 = 2
    exact max_eq_right (by norm_num)
  have h2 : max_scale 2 [1, 2] = [1, 2] := by
    simp only [max_scale, List.map_cons, List.map_nil, hmax2]
    norm_num
  refine ⟨?_, ?_, ?_⟩
  · rw [h1]
    rw [show arrayMax [(0 : ℚ), 100000000 / 100000001] =
      max (0 : ℚ) (100000000 / 100000001) from rfl]
    rw [max_eq_right (by norm_num)]
    norm_num
  · rw [h2]
    rw [show arrayMin [(1 : ℚ), 2] = min (1 : ℚ) 2 from rfl]
    rw [min_eq_left (by norm_num)]
    norm_num
  · rw [h2, hmax2]
    norm_num

/-- C10.  With a seed argument whose per-frame value `speckle_seed + frame`
is nonzero, the frame synthesis re-seeds every random draw, so its result
does not depend on the ambient global random state: two calls with identical
arguments from any two states return identical pixel arrays. -/
theorem realistic_frame_deterministic {σ F Img : Type} (R : RNGModel σ F)
    (P : PureOps F Img) (w h frame total : ℕ) (b : Bool) (s : ℕ) (g1 g2 : σ)
    (hseed : s + frame ≠ 0) :
    (generate_realistic_frame R P w h frame total b (some s) g1).1 =
    (generate_realistic_frame R P w h frame total b (some s) g2).1 := by
  simp only [generate_realistic_frame, generate_realistic_speckle, if_neg hseed]

theorem realistic_frame_deterministic_witness :
    1 + 0 ≠ 0 ∧
    (generate_realistic_frame (RNGModel.mk id (fun _ _ g => (g, g + 1)) (fun _ _ g => (g, g + 1)))
        (PureOps.mk (fun _ _ _ _ x => x) (fun _ _ _ _ x y => x + y)
          (fun _ _ _ _ x y => x + y) id)
        1 1 0 30 true (some 1) (0 : ℕ)).1 =
    (generate_realistic_frame (RNGModel.mk id (fun _ _ g => (g, g + 1)) (fun _ _ g => (g, g + 1)))
        (PureOps.mk (fun _ _ _ _ x => x) (fun _ _ _ _ x y => x + y)
          (fun _ _ _ _ x y => x + y) id)
        1 1 0 30 true (some 1) (5 : ℕ)).1 :=
  ⟨by decide, realistic_frame_deterministic _ _ 1 1 0 30 true 1 0 5 (by decide)⟩
